import Mathlib

/-!
Shallow embedding of the fast-rlm recursive language-model driver
(TypeScript/Deno), covering:

* `provider_config.ts` — `coercePositiveNumber`, `normalizeUsage`,
  `getEnvValue`, `pickModel`, `resolveRuntimeModels`;
* `subagents.ts` — `truncateText`, the agent turn loop with its
  post-increment token-budget check, the `llm_query` recursion bridge,
  and `writeOutputAtomically`;
* `cli_common.ts` — `CliError`, `EXIT_CODES`, `exitCodeForError`,
  `redactSecrets`;
* `cli.ts` — the stderr emission of the top-level catch.

JavaScript numbers are modelled as `JSNum` (a finite rational, NaN or a
signed infinity); JavaScript values reaching `normalizeUsage` as the
inductive `JSValue`, with objects as association lists.  Strings are Lean
`String`s (JS counts UTF-16 code units where Lean counts characters; the
repository's own spec marks multi-byte behaviour implementation-defined).
-/

/-- A JavaScript number: a finite rational, `NaN`, or a signed infinity. -/
inductive JSNum where
  | finite (q : ℚ)
  | nan
  | inf
  | negInf
deriving DecidableEq, Repr

/-- A JavaScript value as far as `normalizeUsage` can observe one:
objects are association lists of named fields. -/
inductive JSValue where
  | undef
  | null
  | bool (b : Bool)
  | num (n : JSNum)
  | str (s : String)
  | obj (fields : List (String × JSValue))

/-- JS property read `v.name` (and the optional-chained `v?.name`, which
for the inputs of `normalizeUsage` only ever meets object or `undefined`
receivers): the field's value on an object carrying it, `undefined`
otherwise. -/
def JSValue.getField : JSValue → String → JSValue
  | .obj fields, name =>
    match fields.find? (fun f => f.1 == name) with
    | some f => f.2
    | none => JSValue.undef
  | _, _ => JSValue.undef

/-- Whether the value is an object. -/
def JSValue.isObj : JSValue → Bool
  | .obj _ => true
  | _ => false

/-- `provider_config.ts` `coercePositiveNumber`: `undefined` unless the
value is a number that is finite and strictly positive. -/
def coercePositiveNumber : JSValue → Option ℚ
  | .num (.finite q) => if 0 < q then some q else none
  | _ => none

/-- `call_llm.ts` `Usage`: the canonical usage record.  After
`normalizeUsage` every field is a finite number, so the fields are plain
rationals here. -/
structure Usage where
  prompt_tokens : ℚ
  completion_tokens : ℚ
  total_tokens : ℚ
  cached_tokens : ℚ
  reasoning_tokens : ℚ
  cost : ℚ
deriving DecidableEq, Repr

/-- The body of `normalizeUsage` over the already-coalesced receiver
`usage = (rawUsage ?? {})`. -/
def normalizeUsageObj (usage : JSValue) : Usage :=
  let usageMetadata := usage.getField "usageMetadata"
  let promptTokens :=
    (coercePositiveNumber (usage.getField "prompt_tokens") <|>
      coercePositiveNumber (usageMetadata.getField "promptTokenCount")).getD 0
  let completionTokens :=
    (coercePositiveNumber (usage.getField "completion_tokens") <|>
      coercePositiveNumber (usageMetadata.getField "candidatesTokenCount")).getD 0
  let totalTokens :=
    (coercePositiveNumber (usage.getField "total_tokens") <|>
      coercePositiveNumber (usageMetadata.getField "totalTokenCount")).getD
      (promptTokens + completionTokens)
  let promptTokenDetails := usage.getField "prompt_tokens_details"
  let completionTokenDetails := usage.getField "completion_tokens_details"
  { prompt_tokens := promptTokens
    completion_tokens := completionTokens
    total_tokens := totalTokens
    cached_tokens :=
      (coercePositiveNumber (promptTokenDetails.getField "cached_tokens")).getD 0
    reasoning_tokens :=
      (coercePositiveNumber (completionTokenDetails.getField "reasoning_tokens")).getD 0
    cost := match usage.getField "cost" with
      | .num (.finite q) => q
      | _ => 0 }

/-- `provider_config.ts` `normalizeUsage`: collapse a provider usage
object into the canonical `Usage` shape.  `rawUsage ?? {}` turns `null`
and `undefined` into the empty object. -/
def normalizeUsage (rawUsage : JSValue) : Usage :=
  normalizeUsageObj (match rawUsage with
    | JSValue.undef => JSValue.obj []
    | .null => JSValue.obj []
    | v => v)

/-- The object literal `normalizeUsage` returns, viewed again as a
JavaScript value (used to state idempotence of `normalizeUsage`). -/
def usageToJS (u : Usage) : JSValue :=
  .obj [("prompt_tokens", .num (.finite u.prompt_tokens)),
        ("completion_tokens", .num (.finite u.completion_tokens)),
        ("total_tokens", .num (.finite u.total_tokens)),
        ("cached_tokens", .num (.finite u.cached_tokens)),
        ("reasoning_tokens", .num (.finite u.reasoning_tokens)),
        ("cost", .num (.finite u.cost))]

/-- JS `text.slice(-n)` for a non-negative `n`, as used in `truncateText`:
`slice(-0)` is `slice(0)` (the whole string); otherwise the last `n`
characters (the whole string when `n` exceeds the length). -/
def sliceNeg (text : String) (n : Nat) : String :=
  if n = 0 then text else ⟨text.data.drop (text.data.length - n)⟩

/-- `subagents.ts` `truncateText` (the module constant `TRUNCATE_LEN`
comes from the configuration file, default 5000, and is threaded as a
parameter here). -/
def truncateText (TRUNCATE_LEN : Nat) (text : String) : String :=
  if text.length > TRUNCATE_LEN then
    "[TRUNCATED: Last " ++ toString TRUNCATE_LEN ++ " chars shown].. " ++
      sliceNeg text TRUNCATE_LEN
  else if text.length = 0 then
    "[EMPTY OUTPUT]"
  else
    "[FULL OUTPUT SHOWN]... " ++ text

/-- `rlm_config.yaml` default for `truncate_len` (`subagents.ts`). -/
def TRUNCATE_LEN : Nat := 5000

/-! ## Provider resolver (`provider_config.ts`) -/

/-- An environment: `Deno.env.get` as a function. -/
abbrev EnvGetter := String → Option String

/-- `provider_config.ts` `getEnvValue`: read, trim, and turn the falsy
empty string into `undefined`. -/
def getEnvValue (name : String) (getEnv : EnvGetter) : Option String :=
  match getEnv name with
  | some v => let t := v.trim; if t = "" then none else some t
  | none => none

/-- The model role: primary (depth-0) agent or sub agent. -/
inductive Role where
  | primary
  | sub
deriving DecidableEq, Repr

/-- The literal role name as it appears in warning strings. -/
def Role.name : Role → String
  | .primary => "primary"
  | .sub => "sub"

/-- `provider_config.ts` `PRIMARY_FALLBACKS`. -/
def PRIMARY_FALLBACKS : List String :=
  ["gpt-5", "gpt-5.1", "gpt-5.2", "gpt-5-codex"]

/-- `provider_config.ts` `SUB_FALLBACKS`. -/
def SUB_FALLBACKS : List String :=
  ["gpt-5-codex-mini", "gpt-5.1-codex-mini", "gemini-2.5-flash"]

/-- The role's fallback environment variable name (`pickModel`). -/
def fallbackEnvName : Role → String
  | .primary => "RLM_FALLBACK_PRIMARY"
  | .sub => "RLM_FALLBACK_SUB"

/-- The role's built-in ordered fallback list (`pickModel`). -/
def defaultCandidates : Role → List String
  | .primary => PRIMARY_FALLBACKS
  | .sub => SUB_FALLBACKS

/-- Result of `pickModel`: the selected id and at most one warning. -/
structure PickResult where
  selected : String
  warning : Option String
deriving DecidableEq, Repr

/-- The built-in-list scan and the `available[0]` last resort of
`provider_config.ts` `pickModel` (its code past the env-fallback test).
`available` is non-empty whenever the caller reaches this point, so the
`headD` default is never read there. -/
def pickModelDefaults (role : Role) (requested : String)
    (available : List String) : PickResult :=
  match (defaultCandidates role).find? (fun c => available.contains c) with
  | some candidate =>
    { selected := candidate
      warning := some ("Requested " ++ role.name ++ " model '" ++ requested ++
        "' is unavailable; using fallback '" ++ candidate ++ "'.") }
  | none =>
    let selected := available.headD ""
    { selected := selected
      warning := some ("Requested " ++ role.name ++ " model '" ++ requested ++
        "' is unavailable; using first available model '" ++ selected ++ "'.") }

/-- `provider_config.ts` `pickModel`. -/
def pickModel (role : Role) (requested : String) (available : List String)
    (getEnv : EnvGetter) : PickResult :=
  if available.contains requested then
    { selected := requested, warning := none }
  else
    let envName := fallbackEnvName role
    match getEnvValue envName getEnv with
    | some fallbackFromEnv =>
      if available.contains fallbackFromEnv then
        { selected := fallbackFromEnv
          warning := some ("Requested " ++ role.name ++ " model '" ++ requested ++
            "' is unavailable; using " ++ envName ++ "='" ++ fallbackFromEnv ++ "'.") }
      else pickModelDefaults role requested available
    | none => pickModelDefaults role requested available

/-- The requested model pair (`resolveModelNames` output shape). -/
structure RequestedModels where
  primaryAgent : String
  subAgent : String
deriving DecidableEq, Repr

/-- `provider_config.ts` `RuntimeModelResolution`. -/
structure RuntimeModelResolution where
  primaryAgent : String
  subAgent : String
  warnings : List String
deriving DecidableEq, Repr

/-- `provider_config.ts` `resolveRuntimeModels`. -/
def resolveRuntimeModels (requested : RequestedModels) (available : List String)
    (getEnv : EnvGetter) : RuntimeModelResolution :=
  let primary := pickModel .primary requested.primaryAgent available getEnv
  let sub := pickModel .sub requested.subAgent available getEnv
  { primaryAgent := primary.selected
    subAgent := sub.selected
    warnings := primary.warning.toList ++ sub.warning.toList }

/-! ## Global usage accumulator and the turn loop (`subagents.ts`) -/

/-- Modelled from the spec: `usage.ts` (`trackUsage`) is not among the
repository files given; §4.3 of the spec defines `track` as field-wise
addition into the process-wide accumulator.  `addUsage` is that
field-wise sum. -/
def addUsage (a b : Usage) : Usage :=
  { prompt_tokens := a.prompt_tokens + b.prompt_tokens
    completion_tokens := a.completion_tokens + b.completion_tokens
    total_tokens := a.total_tokens + b.total_tokens
    cached_tokens := a.cached_tokens + b.cached_tokens
    reasoning_tokens := a.reasoning_tokens + b.reasoning_tokens
    cost := a.cost + b.cost }

/-- The all-zero usage record (`resetUsage`, and step 0 of the loop). -/
def zeroUsage : Usage :=
  { prompt_tokens := 0, completion_tokens := 0, total_tokens := 0,
    cached_tokens := 0, reasoning_tokens := 0, cost := 0 }

/-- The two sequential budget tests of the turn loop
(`subagents.ts` lines 196-211), run on the accumulator value *after*
`trackUsage`: the prompt check first, then the completion check; `none`
when neither limit is set and exceeded. -/
def budgetError (MAX_PROMPT_TOKENS MAX_COMPLETION_TOKENS : Option ℚ)
    (total : Usage) : Option String :=
  let completionCheck :=
    match MAX_COMPLETION_TOKENS with
    | some m =>
      if m < total.completion_tokens then
        some ("Completion token budget exceeded: " ++
          toString total.completion_tokens ++ " used, limit is " ++ toString m)
      else none
    | none => none
  match MAX_PROMPT_TOKENS with
  | some m =>
    if m < total.prompt_tokens then
      some ("Prompt token budget exceeded: " ++
        toString total.prompt_tokens ++ " used, limit is " ++ toString m)
    else completionCheck
  | none => completionCheck

/-- What one iteration of the turn loop observes from its collaborators:
the `generate_code` call's extraction flag and usage, and the value of
the sandbox global `__final_result__` after running the extracted code
(`none` = still `undefined`).  The model reply, the sandbox stdout and
the log records do not influence control flow or the accumulator, so
they are not carried here. -/
structure GenResult where
  success : Bool
  usage : Usage
  finalResult : Option String
deriving Repr

/-- Control outcome of one loop iteration. -/
inductive TurnOutcome where
  | fatal (msg : String)
  | cont
  | finished (result : String)
deriving DecidableEq, Repr

/-- One iteration of the `for` loop of `subagent` (`subagents.ts` lines
188-271): track the call's usage into the global accumulator, run the
post-increment budget checks, then either continue on extraction
failure, finish on a defined `__final_result__`, or continue.  Returns
the new accumulator value and the control outcome. -/
def subagentTurn (MAX_PROMPT_TOKENS MAX_COMPLETION_TOKENS : Option ℚ)
    (total : Usage) (g : GenResult) : Usage × TurnOutcome :=
  let t := addUsage total g.usage
  match budgetError MAX_PROMPT_TOKENS MAX_COMPLETION_TOKENS t with
  | some msg => (t, .fatal msg)
  | none =>
    if !g.success then (t, .cont)
    else
      match g.finalResult with
      | some r => (t, .finished r)
      | none => (t, .cont)

/-- The turn loop of `subagent`, driven by an oracle giving each
iteration's `GenResult`.  Returns the number of chat-completion calls
issued, the final accumulator value, and the result: `ok` on a final
result, `error` on a budget abort, and the exhaustion `RuntimeError`
when the loop falls off the end.  `fuel` is the number of remaining
iterations (`MAX_CALLS` at entry, `i` the iteration index). -/
def subagentLoop (MAX_PROMPT_TOKENS MAX_COMPLETION_TOKENS : Option ℚ)
    (oracle : Nat → GenResult) (total : Usage) (i : Nat) :
    Nat → Nat × Usage × Except String String
  | 0 => (0, total, .error "Did not finish the function stack before subagent died")
  | fuel + 1 =>
    match subagentTurn MAX_PROMPT_TOKENS MAX_COMPLETION_TOKENS total (oracle i) with
    | (t, .fatal msg) => (1, t, .error msg)
    | (t, .finished r) => (1, t, .ok r)
    | (t, .cont) =>
      let rest := subagentLoop MAX_PROMPT_TOKENS MAX_COMPLETION_TOKENS oracle t (i + 1) fuel
      (rest.1 + 1, rest.2)

/-- `rlm_config.yaml` default for `max_calls_per_subagent` (`subagents.ts`). -/
def MAX_CALLS : Nat := 20

/-- `rlm_config.yaml` default for `max_depth` (`subagents.ts`). -/
def MAX_DEPTH : Nat := 3

/-! ## Recursion bridge (`subagents.ts` `llm_query`) -/

/-- The arguments `llm_query` passes to the recursive `subagent` call:
context, child depth, the caller's run id as `parent_run_id`, and the
caller's resolved model pair. -/
structure ChildInvocation where
  context : String
  depth : Nat
  parent_run_id : Option String
  models : RuntimeModelResolution
deriving DecidableEq, Repr

/-- `subagents.ts` `llm_query` (lines 120-128), the host callable
installed into the sandbox: at or beyond `MAX_DEPTH` it appends an error
line to the caller's stdout buffer and throws; below it, it invokes a
child agent at `depth + 1` carrying the caller's `run_id` and resolved
models.  Returns the new stdout buffer and either the thrown message or
the child invocation. -/
def llm_query (MAX_DEPTH : Nat) (subagent_depth : Nat) (run_id : String)
    (models : RuntimeModelResolution) (context : String) (stdoutBuffer : String) :
    String × Except String ChildInvocation :=
  if subagent_depth ≥ MAX_DEPTH then
    (stdoutBuffer ++
      "\nError: MAXIMUM DEPTH REACHED. You must solve this task on your own without calling llm_query.\n",
     .error "MAXIMUM DEPTH REACHED. You must solve this task on your own without calling llm_query.")
  else
    (stdoutBuffer, .ok ⟨context, subagent_depth + 1, some run_id, models⟩)

/-! ## CLI error taxonomy (`cli_common.ts`) -/

/-- `cli_common.ts` `CliErrorKind`. -/
inductive CliErrorKind where
  | usage
  | config
  | proxy
  | model
  | runtime
  | output
  | interrupted
  | generic
deriving DecidableEq, Repr

/-- `cli_common.ts` `CliError` (the `cause` option carries no observable
data for the properties below and is dropped). -/
structure CliError where
  kind : CliErrorKind
  message : String
deriving DecidableEq, Repr

/- `cli_common.ts` `EXIT_CODES`. -/
namespace EXIT_CODES

def OK : Nat := 0

def GENERIC : Nat := 1

def USAGE : Nat := 2

def CONFIG : Nat := 3

def PROXY : Nat := 4

def MODEL : Nat := 5

def RUNTIME : Nat := 6

def OUTPUT_WRITE : Nat := 7

def INTERRUPTED : Nat := 130

end EXIT_CODES

/-- `cli_common.ts` `exitCodeForError`, restricted to `CliError` values
(any non-`CliError` maps to `GENERIC`, as does the `generic` kind via the
switch's default branch). -/
def exitCodeForError (err : CliError) : Nat :=
  match err.kind with
  | .usage => EXIT_CODES.USAGE
  | .config => EXIT_CODES.CONFIG
  | .proxy => EXIT_CODES.PROXY
  | .model => EXIT_CODES.MODEL
  | .runtime => EXIT_CODES.RUNTIME
  | .output => EXIT_CODES.OUTPUT_WRITE
  | .interrupted => EXIT_CODES.INTERRUPTED
  | .generic => EXIT_CODES.GENERIC

/-! ## Secret redaction (`cli_common.ts` `redactSecrets`) and the two
stderr emission sites for fatal errors -/

/-- The JS regex class `\s` (ECMA-262 WhiteSpace plus LineTerminator),
by code point. -/
def isJsWhitespace (c : Char) : Bool :=
  let n := c.toNat
  (9 ≤ n && n ≤ 13) || n = 32 || n = 160 || n = 5760 ||
    (8192 ≤ n && n ≤ 8202) || n = 8232 || n = 8233 || n = 8239 ||
    n = 8287 || n = 12288 || n = 65279

/-- The JS regex class `[A-Za-z0-9._-]` of the Bearer-token pattern. -/
def isTokenChar (c : Char) : Bool :=
  let n := c.toNat
  (65 ≤ n && n ≤ 90) || (97 ≤ n && n ≤ 122) || (48 ≤ n && n ≤ 57) ||
    n = 46 || n = 95 || n = 45

/-- Length of the leading run of characters satisfying `p`. -/
def leadingRun (p : Char → Bool) : List Char → Nat
  | [] => 0
  | c :: rest => if p c then leadingRun p rest + 1 else 0

/-- Length of the match of `/Bearer\s+[A-Za-z0-9._-]+/i` anchored at the
head of the list, when there is one (the regex is greedy and its two
character classes are disjoint, so the maximal-run reading below is the
regex's). -/
def matchBearerLen (l : List Char) : Option Nat :=
  match l with
  | b :: e :: a :: r :: e2 :: r2 :: rest =>
    if b.toLower == 'b' && e.toLower == 'e' && a.toLower == 'a' &&
        r.toLower == 'r' && e2.toLower == 'e' && r2.toLower == 'r' then
      let w := leadingRun isJsWhitespace rest
      if w = 0 then none
      else
        let t := leadingRun isTokenChar (rest.drop w)
        if t = 0 then none else some (6 + w + t)
    else none
  | _ => none

/-- The scan of the first `replace` of `redactSecrets`: every
(leftmost-first, non-overlapping) match of `/Bearer\s+[A-Za-z0-9._-]+/gi`
becomes the literal `Bearer [REDACTED]`.  The fuel argument is only a
structural-termination device: every step consumes at least one input
character, so fuel equal to the input length never runs out. -/
def replaceBearerGo : Nat → List Char → List Char
  | _, [] => []
  | 0, l => l
  | fuel + 1, c :: rest =>
    match matchBearerLen (c :: rest) with
    | some n => "Bearer [REDACTED]".data ++ replaceBearerGo fuel (rest.drop (n - 1))
    | none => c :: replaceBearerGo fuel rest

/-- The first `replace` of `redactSecrets` over character data. -/
def replaceBearer (l : List Char) : List Char :=
  replaceBearerGo l.length l

/-- Match of `/(RLM_MODEL_API_KEY\s*=\s*)([^\s]+)/` anchored at the head
of the list: `some (g, n)` gives the length `g` of capture group 1 and
the total match length `n`. -/
def matchApiKey (l : List Char) : Option (Nat × Nat) :=
  if "RLM_MODEL_API_KEY".data.isPrefixOf l then
    let r1 := l.drop 17
    let w1 := leadingRun isJsWhitespace r1
    match r1.drop w1 with
    | '=' :: r2 =>
      let w2 := leadingRun isJsWhitespace r2
      let t := leadingRun (fun c => !isJsWhitespace c) (r2.drop w2)
      if t = 0 then none
      else some (17 + w1 + 1 + w2, 17 + w1 + 1 + w2 + t)
    | _ => none
  else none

/-- The scan of the second `replace` of `redactSecrets`: each match of
`/(RLM_MODEL_API_KEY\s*=\s*)([^\s]+)/g` is rewritten to `$1[REDACTED]`
(group 1 kept, the key value replaced).  Fuel as in
`replaceBearerGo`. -/
def replaceApiKeyGo : Nat → List Char → List Char
  | _, [] => []
  | 0, l => l
  | fuel + 1, c :: rest =>
    match matchApiKey (c :: rest) with
    | some (g, n) =>
      (c :: rest).take g ++ "[REDACTED]".data ++ replaceApiKeyGo fuel (rest.drop (n - 1))
    | none => c :: replaceApiKeyGo fuel rest

/-- The second `replace` of `redactSecrets` over character data. -/
def replaceApiKey (l : List Char) : List Char :=
  replaceApiKeyGo l.length l

/-- `cli_common.ts` `redactSecrets`: the Bearer-token replacement, then
the `RLM_MODEL_API_KEY` replacement. -/
def redactSecrets (input : String) : String :=
  ⟨replaceApiKey (replaceBearer input.data)⟩

/-- The text `cli.ts` hands to `console.error` in its top-level catch:
the surfaced error message after redaction. -/
def cliFatalStderr (message : String) : String :=
  redactSecrets message

/-- The text `runSubagentCommand` (`subagents.ts` line 335) hands to
`console.error` when the turn loop fails in human-output mode (the
`chalk.red` colour codes wrapping it carry no characters of their own
beyond terminal escapes and are elided): the fatal error message,
unredacted. -/
def subagentFatalStderr (fatalError : String) : String :=
  "\nFatal error: " ++ fatalError

/-- Substring test used to state containment of a secret in emitted
text. -/
def strContains (s pattern : String) : Bool :=
  decide (pattern.data <:+: s.data)

/-! ## Atomic result-file write (`subagents.ts` `writeOutputAtomically`)

The filesystem is an association list from paths to file contents; the
three Deno operations the function issues (`writeTextFile`, `rename`,
`remove`) are modelled as atomic, each allowed to fail by decree of a
`FsFailures` record standing for the environment (the error strings are
what `String(err)` would print). -/

/-- A filesystem snapshot: paths mapped to contents. -/
abbrev FileSystem := List (String × String)

/-- Content at a path. -/
def fsGet (fs : FileSystem) (path : String) : Option String :=
  (fs.find? (fun e => e.1 == path)).map (fun e => e.2)

/-- Remove a path (no-op when absent, like a best-effort remove). -/
def fsErase (fs : FileSystem) (path : String) : FileSystem :=
  fs.filter (fun e => !(e.1 == path))

/-- Create or overwrite a file. -/
def fsSet (fs : FileSystem) (path content : String) : FileSystem :=
  (path, content) :: fsErase fs path

/-- Which of the three filesystem calls fail in this run, and the error
text of the failing call. -/
structure FsFailures where
  writeFails : Bool
  writeErr : String
  renameFails : Bool
  renameErr : String
  removeFails : Bool
deriving DecidableEq, Repr

/-- `subagents.ts` `writeOutputAtomically` (lines 295-308).
`payloadJson` is `JSON.stringify(payload)` (serialization is opaque
here) and `uuid` the value of `crypto.randomUUID()`.  Returns the
resulting filesystem and either success or the thrown `CliError`. -/
def writeOutputAtomically (fs : FileSystem) (outputFile : String)
    (payloadJson : String) (uuid : String) (fail : FsFailures) :
    FileSystem × Except CliError Unit :=
  let tmp := outputFile ++ ".tmp." ++ uuid
  let failWriting := fun (fsNow : FileSystem) (errText : String) =>
    -- catch block: best-effort remove of tmp, then throw CliError("output", ...)
    let fsCleaned := if fail.removeFails then fsNow else fsErase fsNow tmp
    (fsCleaned,
     Except.error (⟨.output,
       "Failed writing output file '" ++ outputFile ++ "': " ++ errText⟩ : CliError))
  if fail.writeFails then
    failWriting fs fail.writeErr
  else
    let fs1 := fsSet fs tmp payloadJson
    if fail.renameFails then
      failWriting fs1 fail.renameErr
    else
      (fsErase (fsSet fs1 outputFile payloadJson) tmp, Except.ok ())

/-! ## Helper lemmas -/

/-- String concatenation acts as list concatenation on the character data. -/
theorem string_data_append (a b : String) : (a ++ b).data = a.data ++ b.data := rfl

/-- String length is the length of the character data. -/
theorem string_length_data (s : String) : s.length = s.data.length := rfl

/-- A substring exhibited by an explicit decomposition. -/
theorem strContains_of_decomp (w pre mid post : String)
    (hw : w.data = pre.data ++ mid.data ++ post.data) : strContains w mid = true := by
  unfold strContains
  rw [decide_eq_true_eq]
  exact ⟨pre.data, post.data, hw.symm⟩

/-- `coercePositiveNumber` only ever returns positive rationals. -/
theorem coercePositiveNumber_pos {w : JSValue} {q : ℚ}
    (h : coercePositiveNumber w = some q) : 0 < q := by
  cases w with
  | num n =>
    cases n with
    | finite x =>
      simp only [coercePositiveNumber] at h
      split at h
      · cases h
        assumption
      · cases h
    | nan => simp [coercePositiveNumber] at h
    | inf => simp [coercePositiveNumber] at h
    | negInf => simp [coercePositiveNumber] at h
  | undef => simp [coercePositiveNumber] at h
  | null => simp [coercePositiveNumber] at h
  | bool b => simp [coercePositiveNumber] at h
  | str s => simp [coercePositiveNumber] at h
  | obj fields => simp [coercePositiveNumber] at h

/-- The single-coercion `?? 0` pattern yields a non-negative value. -/
theorem coerce_getD_nonneg (w : JSValue) : 0 ≤ (coercePositiveNumber w).getD 0 := by
  rcases h : coercePositiveNumber w with _ | q
  · simp
  · simp
    exact (coercePositiveNumber_pos h).le

/-- The `a ?? b ?? d` pattern over two coercions yields a non-negative
value whenever the default is non-negative. -/
theorem coerce_orElse_getD_nonneg (w₁ w₂ : JSValue) (d : ℚ) (hd : 0 ≤ d) :
    0 ≤ ((coercePositiveNumber w₁ <|> coercePositiveNumber w₂).getD d) := by
  rcases h1 : coercePositiveNumber w₁ with _ | q1
  · rcases h2 : coercePositiveNumber w₂ with _ | q2
    · simp [h1, h2, hd]
    · simp [h1, h2]
      exact (coercePositiveNumber_pos h2).le
  · simp [h1]
    exact (coercePositiveNumber_pos h1).le

/-- The `a ?? b ?? d` pattern: either both coercions miss and the
default is returned, or the value returned is positive. -/
theorem coerce_orElse_getD_cases (w₁ w₂ : JSValue) (d : ℚ) :
    ((coercePositiveNumber w₁ <|> coercePositiveNumber w₂).getD d) = d ∨
      0 < ((coercePositiveNumber w₁ <|> coercePositiveNumber w₂).getD d) := by
  rcases h1 : coercePositiveNumber w₁ with _ | q1
  · rcases h2 : coercePositiveNumber w₂ with _ | q2
    · simp [h1, h2]
    · simp [h1, h2]
      exact .inr (coercePositiveNumber_pos h2)
  · simp [h1]
    exact .inr (coercePositiveNumber_pos h1)

/-- Every token field of a normalized usage record is non-negative
(`cost` is deliberately not on this list). -/
theorem normalizeUsageObj_nonneg (usage : JSValue) :
    0 ≤ (normalizeUsageObj usage).prompt_tokens ∧
      0 ≤ (normalizeUsageObj usage).completion_tokens ∧
      0 ≤ (normalizeUsageObj usage).total_tokens ∧
      0 ≤ (normalizeUsageObj usage).cached_tokens ∧
      0 ≤ (normalizeUsageObj usage).reasoning_tokens := by
  refine ⟨?_, ?_, ?_, ?_, ?_⟩
  · exact coerce_orElse_getD_nonneg _ _ 0 le_rfl
  · exact coerce_orElse_getD_nonneg _ _ 0 le_rfl
  · exact coerce_orElse_getD_nonneg _ _ _
      (add_nonneg (coerce_orElse_getD_nonneg _ _ 0 le_rfl)
        (coerce_orElse_getD_nonneg _ _ 0 le_rfl))
  · exact coerce_getD_nonneg ((usage.getField "prompt_tokens_details").getField "cached_tokens")
  · exact coerce_getD_nonneg
      ((usage.getField "completion_tokens_details").getField "reasoning_tokens")

/-- The normalized total is positive or exactly the prompt+completion
fallback. -/
theorem normalizeUsageObj_total (usage : JSValue) :
    0 < (normalizeUsageObj usage).total_tokens ∨
      (normalizeUsageObj usage).total_tokens =
        (normalizeUsageObj usage).prompt_tokens +
          (normalizeUsageObj usage).completion_tokens := by
  rcases coerce_orElse_getD_cases (usage.getField "total_tokens")
      ((usage.getField "usageMetadata").getField "totalTokenCount")
      ((normalizeUsageObj usage).prompt_tokens + (normalizeUsageObj usage).completion_tokens)
    with h | h
  · exact .inr h
  · exact .inl h

/-- On an object, the null-coalescing at the entry of `normalizeUsage`
is the identity. -/
theorem normalizeUsage_obj (fields : List (String × JSValue)) :
    normalizeUsage (.obj fields) = normalizeUsageObj (.obj fields) := rfl

/-- The truncated branch of `truncateText`, in one equation. -/
theorem truncateText_long {T : Nat} {text : String} (h : T < text.length) :
    truncateText T text =
      "[TRUNCATED: Last " ++ toString T ++ " chars shown].. " ++ sliceNeg text T := by
  unfold truncateText
  rw [if_pos h]

/-- For a positive window not exceeding the length, `sliceNeg` keeps
exactly `T` characters. -/
theorem sliceNeg_length {T : Nat} {text : String} (hT : 0 < T) (h : T ≤ text.length) :
    (sliceNeg text T).length = T := by
  unfold sliceNeg
  rw [if_neg (by omega)]
  show (text.data.drop (text.data.length - T)).length = T
  rw [List.length_drop]
  have := string_length_data text
  omega

/-- `sliceNeg` with a positive window is the data-level suffix. -/
theorem sliceNeg_data {T : Nat} (text : String) (hT : 0 < T) :
    (sliceNeg text T).data = text.data.drop (text.data.length - T) := by
  unfold sliceNeg
  rw [if_neg (by omega)]

/-- Appending a string of exactly the window length and slicing it back
returns it unchanged. -/
theorem sliceNeg_append_right {T : Nat} (pre tail : String) (hT : 0 < T)
    (hlen : tail.length = T) : sliceNeg (pre ++ tail) T = tail := by
  have htl : tail.data.length = T := by
    have := string_length_data tail
    omega
  have hdata : (sliceNeg (pre ++ tail) T).data = tail.data := by
    rw [sliceNeg_data _ hT, string_data_append, List.length_append,
      show pre.data.length + tail.data.length - T = pre.data.length by omega]
    exact List.drop_left pre.data tail.data
  exact String.ext hdata

/-! ## Lemmas on `normalizeUsage` -/

/-- Projection: the `cost` field of the normalized record. -/
theorem nObj_cost (v : JSValue) : (normalizeUsageObj v).cost =
    (match v.getField "cost" with
      | .num (.finite q) => q
      | _ => 0) := rfl

/-- Projection: the `prompt_tokens` field of the normalized record. -/
theorem nObj_prompt (v : JSValue) : (normalizeUsageObj v).prompt_tokens =
    (coercePositiveNumber (v.getField "prompt_tokens") <|>
      coercePositiveNumber ((v.getField "usageMetadata").getField
        "promptTokenCount")).getD 0 := rfl

/-- Projection: the `total_tokens` field of the normalized record, with
its prompt+completion default. -/
theorem nObj_total (v : JSValue) : (normalizeUsageObj v).total_tokens =
    (coercePositiveNumber (v.getField "total_tokens") <|>
      coercePositiveNumber ((v.getField "usageMetadata").getField
        "totalTokenCount")).getD
      ((normalizeUsageObj v).prompt_tokens + (normalizeUsageObj v).completion_tokens) := rfl

/-- Re-coercing an already non-negative finite number returns it. -/
theorem coerce_finite_none_getD {p : ℚ} (hp : 0 ≤ p) :
    ((coercePositiveNumber (.num (.finite p)) <|> (none : Option ℚ)).getD 0) = p := by
  by_cases h : 0 < p
  · simp [coercePositiveNumber, h]
  · have hz : p = 0 := le_antisymm (not_lt.mp h) hp
    simp [coercePositiveNumber, h, hz]

/-- Re-coercing a total that is positive or equal to the default
returns it. -/
theorem coerce_finite_none_getD_total {t d : ℚ} (htd : 0 < t ∨ t = d) :
    ((coercePositiveNumber (.num (.finite t)) <|> (none : Option ℚ)).getD d) = t := by
  by_cases h : 0 < t
  · simp [coercePositiveNumber, h]
  · rcases htd with h2 | h2
    · exact absurd h2 h
    · subst h2
      simp only [coercePositiveNumber]
      split <;> simp

/-- Every token field of `normalizeUsage` is non-negative. -/
theorem normalizeUsage_nonneg (x : JSValue) :
    0 ≤ (normalizeUsage x).prompt_tokens ∧
      0 ≤ (normalizeUsage x).completion_tokens ∧
      0 ≤ (normalizeUsage x).total_tokens ∧
      0 ≤ (normalizeUsage x).cached_tokens ∧
      0 ≤ (normalizeUsage x).reasoning_tokens :=
  normalizeUsageObj_nonneg _

/-- The normalized total is positive or the prompt+completion sum. -/
theorem normalizeUsage_total_cases (x : JSValue) :
    0 < (normalizeUsage x).total_tokens ∨
      (normalizeUsage x).total_tokens =
        (normalizeUsage x).prompt_tokens + (normalizeUsage x).completion_tokens :=
  normalizeUsageObj_total _

/-! ## Lemmas on `pickModel` (used by the `resolveRuntimeModels` claim) -/

/-- A requested model that is available is selected with no warning. -/
theorem pickModel_mem {role : Role} {req : String} {av : List String} {env : EnvGetter}
    (h : req ∈ av) : pickModel role req av env = ⟨req, none⟩ := by
  simp [pickModel, h]

/-- An unavailable request with an available env-var fallback selects
that fallback with its warning. -/
theorem pickModel_env (role : Role) {req : String} {av : List String} {env : EnvGetter}
    {f : String} (h : req ∉ av) (hf : getEnvValue (fallbackEnvName role) env = some f)
    (hfav : f ∈ av) :
    pickModel role req av env =
      ⟨f, some ("Requested " ++ role.name ++ " model '" ++ req ++
        "' is unavailable; using " ++ fallbackEnvName role ++ "='" ++ f ++ "'.")⟩ := by
  simp [pickModel, h, hf, hfav]

/-- With no usable env-var fallback the built-in scan decides. -/
theorem pickModel_no_env (role : Role) {req : String} {av : List String} {env : EnvGetter}
    (h : req ∉ av)
    (henv : ∀ f, getEnvValue (fallbackEnvName role) env = some f → f ∉ av) :
    pickModel role req av env = pickModelDefaults role req av := by
  rcases hg : getEnvValue (fallbackEnvName role) env with _ | f
  · simp [pickModel, h, hg]
  · simp [pickModel, h, hg, henv f hg]

/-- The built-in scan selects the first available candidate. -/
theorem pickModelDefaults_scan (role : Role) {req : String} {av : List String} {c : String}
    (hc : (defaultCandidates role).find? (fun x => av.contains x) = some c) :
    pickModelDefaults role req av =
      ⟨c, some ("Requested " ++ role.name ++ " model '" ++ req ++
        "' is unavailable; using fallback '" ++ c ++ "'.")⟩ := by
  unfold pickModelDefaults
  rw [hc]

/-- With no usable candidate, `available[0]` is the last resort. -/
theorem pickModelDefaults_first (role : Role) {req : String} {av : List String}
    (hn : (defaultCandidates role).find? (fun x => av.contains x) = none) :
    pickModelDefaults role req av =
      ⟨av.headD "", some ("Requested " ++ role.name ++ " model '" ++ req ++
        "' is unavailable; using first available model '" ++ av.headD "" ++ "'.")⟩ := by
  unfold pickModelDefaults
  rw [hn]

/-- The default head of a non-empty list is a member. -/
theorem headD_mem {av : List String} (hav : av ≠ []) : av.headD "" ∈ av := by
  cases av with
  | nil => exact absurd rfl hav
  | cons a t => exact List.mem_cons_self a t

/-- The built-in scan only selects available models. -/
theorem pickModelDefaults_selected_mem {role : Role} {req : String} {av : List String}
    (hav : av ≠ []) : (pickModelDefaults role req av).selected ∈ av := by
  unfold pickModelDefaults
  cases hc : (defaultCandidates role).find? (fun x => av.contains x) with
  | some c =>
    simp only []
    have hp := List.find?_some hc
    simpa using hp
  | none =>
    simp only []
    exact headD_mem hav

/-- A fallback selection is always an available model. -/
theorem pickModel_selected_mem {role : Role} {req : String} {av : List String}
    {env : EnvGetter} (hav : av ≠ []) (h : req ∉ av) :
    (pickModel role req av env).selected ∈ av := by
  rcases hg : getEnvValue (fallbackEnvName role) env with _ | f
  · rw [pickModel_no_env role h (fun f hf => by rw [hg] at hf; cases hf)]
    exact pickModelDefaults_selected_mem hav
  · by_cases hfav : f ∈ av
    · rw [pickModel_env role h hg hfav]
      exact hfav
    · rw [pickModel_no_env role h (fun g hg2 => by
        rw [hg] at hg2
        cases hg2
        exact hfav)]
      exact pickModelDefaults_selected_mem hav

/-- The built-in-scan warning names the role, the request and the
choice. -/
theorem pickModelDefaults_warning_names {role : Role} {req : String} {av : List String} :
    ∃ w, (pickModelDefaults role req av).warning = some w ∧
      strContains w role.name = true ∧ strContains w req = true ∧
      strContains w (pickModelDefaults role req av).selected = true := by
  cases hc : (defaultCandidates role).find? (fun x => av.contains x) with
  | some c =>
    rw [pickModelDefaults_scan role hc]
    refine ⟨_, rfl, ?_, ?_, ?_⟩
    · apply strContains_of_decomp _ "Requested " role.name
        (" model '" ++ req ++ "' is unavailable; using fallback '" ++ c ++ "'.")
      simp [string_data_append, List.append_assoc]
    · apply strContains_of_decomp _ ("Requested " ++ role.name ++ " model '") req
        ("' is unavailable; using fallback '" ++ c ++ "'.")
      simp [string_data_append, List.append_assoc]
    · apply strContains_of_decomp _
        ("Requested " ++ role.name ++ " model '" ++ req ++
          "' is unavailable; using fallback '") c "'."
      simp [string_data_append, List.append_assoc]
  | none =>
    rw [pickModelDefaults_first role hc]
    refine ⟨_, rfl, ?_, ?_, ?_⟩
    · apply strContains_of_decomp _ "Requested " role.name
        (" model '" ++ req ++ "' is unavailable; using first available model '" ++
          av.headD "" ++ "'.")
      simp [string_data_append, List.append_assoc]
    · apply strContains_of_decomp _ ("Requested " ++ role.name ++ " model '") req
        ("' is unavailable; using first available model '" ++ av.headD "" ++ "'.")
      simp [string_data_append, List.append_assoc]
    · apply strContains_of_decomp _
        ("Requested " ++ role.name ++ " model '" ++ req ++
          "' is unavailable; using first available model '") (av.headD "") "'."
      simp [string_data_append, List.append_assoc]

/-- Every non-identity selection carries a warning naming the role, the
requested id and the chosen id. -/
theorem pickModel_warning_names (role : Role) {req : String} {av : List String}
    (env : EnvGetter) (h : req ∉ av) :
    ∃ w, (pickModel role req av env).warning = some w ∧
      strContains w role.name = true ∧ strContains w req = true ∧
      strContains w (pickModel role req av env).selected = true := by
  rcases hg : getEnvValue (fallbackEnvName role) env with _ | f
  · rw [pickModel_no_env role h (fun f hf => by rw [hg] at hf; cases hf)]
    exact pickModelDefaults_warning_names
  · by_cases hfav : f ∈ av
    · rw [pickModel_env role h hg hfav]
      refine ⟨_, rfl, ?_, ?_, ?_⟩
      · apply strContains_of_decomp _ "Requested " role.name
          (" model '" ++ req ++ "' is unavailable; using " ++ fallbackEnvName role ++
            "='" ++ f ++ "'.")
        simp [string_data_append, List.append_assoc]
      · apply strContains_of_decomp _ ("Requested " ++ role.name ++ " model '") req
          ("' is unavailable; using " ++ fallbackEnvName role ++ "='" ++ f ++ "'.")
        simp [string_data_append, List.append_assoc]
      · apply strContains_of_decomp _
          ("Requested " ++ role.name ++ " model '" ++ req ++
            "' is unavailable; using " ++ fallbackEnvName role ++ "='") f "'."
        simp [string_data_append, List.append_assoc]
    · rw [pickModel_no_env role h (fun g hg2 => by rw [hg] at hg2; cases hg2; exact hfav)]
      exact pickModelDefaults_warning_names

/-- Identity selection happens exactly when the request is available. -/
theorem pickModel_selected_eq_iff {role : Role} {req : String} {av : List String}
    {env : EnvGetter} (hav : av ≠ []) :
    (pickModel role req av env).selected = req ↔ req ∈ av := by
  by_cases h : req ∈ av
  · simp [pickModel_mem h, h]
  · simp only [h, iff_false]
    intro heq
    exact h (heq ▸ pickModel_selected_mem hav h)

/-- The warning count of one role: none on identity, one otherwise. -/
theorem pickModel_warning_length {role : Role} {req : String} {av : List String}
    {env : EnvGetter} :
    ((pickModel role req av env).warning.toList).length =
      if req ∈ av then 0 else 1 := by
  by_cases h : req ∈ av
  · simp [pickModel_mem h, h]
  · obtain ⟨w, hw, -⟩ := pickModel_warning_names role env h
    simp [hw, h]

/-! ## C5: runtime model resolution -/

/-- C5 (confirmed): per role, an available requested id is taken with no
warning; otherwise the role's fallback env var decides when its value is
available; otherwise the first available member of the role's built-in
ordered fallback list; otherwise `available[0]`; the selection is the
requested id exactly when that id is available, the number of warnings
is the number of non-identity selections, and each such warning names
the role, the requested id and the chosen id.  (Determinism is inherent:
the embedding is a pure function of its inputs.) -/
theorem resolveRuntimeModels_spec (requested : RequestedModels) (available : List String)
    (getEnv : EnvGetter) (hav : available ≠ []) :
    ((requested.primaryAgent ∈ available →
        (resolveRuntimeModels requested available getEnv).primaryAgent =
          requested.primaryAgent) ∧
      (requested.subAgent ∈ available →
        (resolveRuntimeModels requested available getEnv).subAgent = requested.subAgent)) ∧
    ((requested.primaryAgent ∉ available → ∀ f,
        getEnvValue "RLM_FALLBACK_PRIMARY" getEnv = some f → f ∈ available →
        (resolveRuntimeModels requested available getEnv).primaryAgent = f) ∧
      (requested.subAgent ∉ available → ∀ f,
        getEnvValue "RLM_FALLBACK_SUB" getEnv = some f → f ∈ available →
        (resolveRuntimeModels requested available getEnv).subAgent = f)) ∧
    ((requested.primaryAgent ∉ available →
        (∀ f, getEnvValue "RLM_FALLBACK_PRIMARY" getEnv = some f → f ∉ available) →
        (∀ c, PRIMARY_FALLBACKS.find? (fun x => available.contains x) = some c →
          (resolveRuntimeModels requested available getEnv).primaryAgent = c) ∧
        (PRIMARY_FALLBACKS.find? (fun x => available.contains x) = none →
          (resolveRuntimeModels requested available getEnv).primaryAgent =
            available.headD "")) ∧
      (requested.subAgent ∉ available →
        (∀ f, getEnvValue "RLM_FALLBACK_SUB" getEnv = some f → f ∉ available) →
        (∀ c, SUB_FALLBACKS.find? (fun x => available.contains x) = some c →
          (resolveRuntimeModels requested available getEnv).subAgent = c) ∧
        (SUB_FALLBACKS.find? (fun x => available.contains x) = none →
          (resolveRuntimeModels requested available getEnv).subAgent =
            available.headD ""))) ∧
    (((resolveRuntimeModels requested available getEnv).primaryAgent =
        requested.primaryAgent ↔ requested.primaryAgent ∈ available) ∧
      ((resolveRuntimeModels requested available getEnv).subAgent =
        requested.subAgent ↔ requested.subAgent ∈ available)) ∧
    ((resolveRuntimeModels requested available getEnv).warnings.length =
      (if requested.primaryAgent ∈ available then 0 else 1) +
        (if requested.subAgent ∈ available then 0 else 1)) ∧
    (requested.primaryAgent ∉ available →
      ∃ w ∈ (resolveRuntimeModels requested available getEnv).warnings,
        strContains w "primary" = true ∧
        strContains w requested.primaryAgent = true ∧
        strContains w (resolveRuntimeModels requested available getEnv).primaryAgent =
          true) ∧
    (requested.subAgent ∉ available →
      ∃ w ∈ (resolveRuntimeModels requested available getEnv).warnings,
        strContains w "sub" = true ∧
        strContains w requested.subAgent = true ∧
        strContains w (resolveRuntimeModels requested available getEnv).subAgent =
          true) := by
  have hrp : (resolveRuntimeModels requested available getEnv).primaryAgent =
      (pickModel .primary requested.primaryAgent available getEnv).selected := rfl
  have hrs : (resolveRuntimeModels requested available getEnv).subAgent =
      (pickModel .sub requested.subAgent available getEnv).selected := rfl
  have hrw : (resolveRuntimeModels requested available getEnv).warnings =
      (pickModel .primary requested.primaryAgent available getEnv).warning.toList ++
        (pickModel .sub requested.subAgent available getEnv).warning.toList := rfl
  refine ⟨⟨?_, ?_⟩, ⟨?_, ?_⟩, ⟨?_, ?_⟩, ⟨?_, ?_⟩, ?_, ?_, ?_⟩
  · intro h
    rw [hrp, pickModel_mem h]
  · intro h
    rw [hrs, pickModel_mem h]
  · intro h f hf hfav
    rw [hrp, pickModel_env .primary h hf hfav]
  · intro h f hf hfav
    rw [hrs, pickModel_env .sub h hf hfav]
  · intro h henv
    constructor
    · intro c hc
      rw [hrp, pickModel_no_env .primary h henv,
        pickModelDefaults_scan .primary hc]
    · intro hn
      rw [hrp, pickModel_no_env .primary h henv,
        pickModelDefaults_first .primary hn]
  · intro h henv
    constructor
    · intro c hc
      rw [hrs, pickModel_no_env .sub h henv,
        pickModelDefaults_scan .sub hc]
    · intro hn
      rw [hrs, pickModel_no_env .sub h henv,
        pickModelDefaults_first .sub hn]
  · rw [hrp]
    exact pickModel_selected_eq_iff hav
  · rw [hrs]
    exact pickModel_selected_eq_iff hav
  · rw [hrw, List.length_append, pickModel_warning_length, pickModel_warning_length]
  · intro h
    obtain ⟨w, hw, h1, h2, h3⟩ :=
      pickModel_warning_names .primary getEnv h
    refine ⟨w, ?_, h1, h2, ?_⟩
    · rw [hrw]
      exact List.mem_append_left _ (by simp [hw])
    · rw [hrp]
      exact h3
  · intro h
    obtain ⟨w, hw, h1, h2, h3⟩ :=
      pickModel_warning_names .sub getEnv h
    refine ⟨w, ?_, h1, h2, ?_⟩
    · rw [hrw]
      exact List.mem_append_right _ (by simp [hw])
    · rw [hrs]
      exact h3

/-- Witness for C5, the spec's scenario 6: requested primary `gpt-6`
against catalog `[gpt-5, gpt-5-codex-mini]` with no env fallbacks
resolves to `gpt-5` with exactly one warning; the sub request is
available and kept. -/
theorem resolveRuntimeModels_spec_witness :
    (["gpt-5", "gpt-5-codex-mini"] ≠ ([] : List String)) ∧
    (resolveRuntimeModels ⟨"gpt-6", "gpt-5-codex-mini"⟩ ["gpt-5", "gpt-5-codex-mini"]
        (fun _ => none)).primaryAgent = "gpt-5" ∧
    (resolveRuntimeModels ⟨"gpt-6", "gpt-5-codex-mini"⟩ ["gpt-5", "gpt-5-codex-mini"]
        (fun _ => none)).subAgent = "gpt-5-codex-mini" ∧
    (resolveRuntimeModels ⟨"gpt-6", "gpt-5-codex-mini"⟩ ["gpt-5", "gpt-5-codex-mini"]
        (fun _ => none)).warnings.length = 1 := by
  have h := resolveRuntimeModels_spec ⟨"gpt-6", "gpt-5-codex-mini"⟩
    ["gpt-5", "gpt-5-codex-mini"] (fun _ => none) (by simp)
  refine ⟨by simp, ?_, ?_, ?_⟩
  · exact (h.2.2.1.1 (by decide) (fun f hf => by cases hf)).1 "gpt-5" (by decide)
  · exact h.1.2 (by decide)
  · rw [h.2.2.2.2.1]
    decide

/-! ## C1: post-increment token budget check -/

/-- C1 (confirmed): in any iteration of the turn loop, once the call's
usage has been added to the global accumulator, a set and exceeded
prompt-token limit fails the loop with exactly
`Prompt token budget exceeded: N used, limit is M` — where `N` is the
accumulated count including the overflowing call (the returned
accumulator is the post-increment value) — and symmetrically for
completion tokens when the prompt check does not fire first. -/
theorem subagent_budget_check (maxP maxC : Option ℚ) (oracle : Nat → GenResult)
    (total : Usage) (i fuel : Nat) :
    (∀ m, maxP = some m → m < (addUsage total (oracle i).usage).prompt_tokens →
      subagentLoop maxP maxC oracle total i (fuel + 1) =
        (1, addUsage total (oracle i).usage,
         Except.error ("Prompt token budget exceeded: " ++
           toString (addUsage total (oracle i).usage).prompt_tokens ++
           " used, limit is " ++ toString m))) ∧
    (∀ m, maxC = some m →
      (∀ mp, maxP = some mp → (addUsage total (oracle i).usage).prompt_tokens ≤ mp) →
      m < (addUsage total (oracle i).usage).completion_tokens →
      subagentLoop maxP maxC oracle total i (fuel + 1) =
        (1, addUsage total (oracle i).usage,
         Except.error ("Completion token budget exceeded: " ++
           toString (addUsage total (oracle i).usage).completion_tokens ++
           " used, limit is " ++ toString m))) := by
  constructor
  · intro m hm hlt
    subst hm
    have ht : subagentTurn (some m) maxC total (oracle i) =
        (addUsage total (oracle i).usage,
         .fatal ("Prompt token budget exceeded: " ++
           toString (addUsage total (oracle i).usage).prompt_tokens ++
           " used, limit is " ++ toString m)) := by
      unfold subagentTurn budgetError
      simp only []
      rw [if_pos hlt]
    simp [subagentLoop, ht]
  · intro m hm hnp hlt
    subst hm
    have ht : subagentTurn maxP (some m) total (oracle i) =
        (addUsage total (oracle i).usage,
         .fatal ("Completion token budget exceeded: " ++
           toString (addUsage total (oracle i).usage).completion_tokens ++
           " used, limit is " ++ toString m)) := by
      unfold subagentTurn budgetError
      cases maxP with
      | none =>
        simp only []
        rw [if_pos hlt]
      | some mp =>
        have := hnp mp rfl
        simp only []
        rw [if_neg (by exact not_lt.mpr this), if_pos hlt]
    simp [subagentLoop, ht]

/-- Witness for C1: limits 100/50; an overflowing prompt call of 150
prompt tokens, and a call of 80/60 that overflows only the completion
budget. -/
theorem subagent_budget_check_witness :
    subagentLoop (some 100) (some 50)
        (fun _ => ⟨true, { zeroUsage with prompt_tokens := 150, completion_tokens := 60 }, none⟩)
        zeroUsage 0 1 =
      (1, { zeroUsage with prompt_tokens := 150, completion_tokens := 60 },
       Except.error "Prompt token budget exceeded: 150 used, limit is 100") ∧
    subagentLoop (some 100) (some 50)
        (fun _ => ⟨true, { zeroUsage with prompt_tokens := 80, completion_tokens := 60 }, none⟩)
        zeroUsage 0 1 =
      (1, { zeroUsage with prompt_tokens := 80, completion_tokens := 60 },
       Except.error "Completion token budget exceeded: 60 used, limit is 50") := by
  constructor
  · have h := (subagent_budget_check (some 100) (some 50)
        (fun _ => ⟨true, { zeroUsage with prompt_tokens := 150, completion_tokens := 60 }, none⟩)
        zeroUsage 0 0).1 100 rfl (by norm_num [addUsage, zeroUsage])
    rw [h]
    have ha : addUsage zeroUsage
        { zeroUsage with prompt_tokens := 150, completion_tokens := 60 } =
        { zeroUsage with prompt_tokens := 150, completion_tokens := 60 } := by
      simp [addUsage, zeroUsage]
    rw [ha]
    rfl
  · have h := (subagent_budget_check (some 100) (some 50)
        (fun _ => ⟨true, { zeroUsage with prompt_tokens := 80, completion_tokens := 60 }, none⟩)
        zeroUsage 0 0).2 50 rfl
        (by intro mp hmp; cases hmp; norm_num [addUsage, zeroUsage])
        (by norm_num [addUsage, zeroUsage])
    rw [h]
    have ha : addUsage zeroUsage
        { zeroUsage with prompt_tokens := 80, completion_tokens := 60 } =
        { zeroUsage with prompt_tokens := 80, completion_tokens := 60 } := by
      simp [addUsage, zeroUsage]
    rw [ha]
    rfl

/-! ## C8: call bound and exhaustion error -/

/-- The loop never issues more chat-completion calls than it has fuel. -/
theorem subagentLoop_calls_le (maxP maxC : Option ℚ) (oracle : Nat → GenResult) :
    ∀ (fuel : Nat) (total : Usage) (i : Nat),
      (subagentLoop maxP maxC oracle total i fuel).1 ≤ fuel := by
  intro fuel
  induction fuel with
  | zero =>
    intro total i
    simp [subagentLoop]
  | succ n ih =>
    intro total i
    rw [subagentLoop]
    rcases h : subagentTurn maxP maxC total (oracle i) with ⟨t, out⟩
    cases out with
    | fatal msg => simp [h]
    | finished r => simp [h]
    | cont =>
      simp only [h]
      simpa using Nat.succ_le_succ (ih t (i + 1))

/-- A loop all of whose turns continue ends in the exhaustion error. -/
theorem subagentLoop_exhaust (maxP maxC : Option ℚ) (oracle : Nat → GenResult)
    (hcont : ∀ j t, (subagentTurn maxP maxC t (oracle j)).2 = TurnOutcome.cont) :
    ∀ (fuel : Nat) (total : Usage) (i : Nat),
      (subagentLoop maxP maxC oracle total i fuel).2.2 =
        Except.error "Did not finish the function stack before subagent died" := by
  intro fuel
  induction fuel with
  | zero =>
    intro total i
    simp [subagentLoop]
  | succ n ih =>
    intro total i
    rw [subagentLoop]
    rcases h : subagentTurn maxP maxC total (oracle i) with ⟨t, out⟩
    have h2 := hcont i total
    rw [h] at h2
    cases out with
    | fatal msg => cases h2
    | finished r => cases h2
    | cont => simpa using ih t (i + 1)

/-- C8 (confirmed): a full agent run issues at most `MAX_CALLS`
chat-completion calls (extraction-failure turns included, since they
consume an iteration), and when every iteration merely continues — no
final result, no budget abort — the run fails with exactly
`Did not finish the function stack before subagent died`. -/
theorem subagent_call_bound (maxP maxC : Option ℚ) (oracle : Nat → GenResult) :
    (subagentLoop maxP maxC oracle zeroUsage 0 MAX_CALLS).1 ≤ MAX_CALLS ∧
    ((∀ j t, (subagentTurn maxP maxC t (oracle j)).2 = TurnOutcome.cont) →
      (subagentLoop maxP maxC oracle zeroUsage 0 MAX_CALLS).2.2 =
        Except.error "Did not finish the function stack before subagent died") :=
  ⟨subagentLoop_calls_le maxP maxC oracle MAX_CALLS zeroUsage 0,
   fun hcont => subagentLoop_exhaust maxP maxC oracle hcont MAX_CALLS zeroUsage 0⟩

/-- Witness for C8: an agent whose model never emits a `repl` block
(every extraction fails) exhausts all `MAX_CALLS` iterations and dies
with the exhaustion error. -/
theorem subagent_call_bound_witness :
    (subagentLoop none none (fun _ => ⟨false, zeroUsage, none⟩) zeroUsage 0 MAX_CALLS).1 ≤
      MAX_CALLS ∧
    (subagentLoop none none (fun _ => ⟨false, zeroUsage, none⟩) zeroUsage 0 MAX_CALLS).2.2 =
      Except.error "Did not finish the function stack before subagent died" :=
  ⟨(subagent_call_bound none none (fun _ => ⟨false, zeroUsage, none⟩)).1,
   (subagent_call_bound none none (fun _ => ⟨false, zeroUsage, none⟩)).2 (fun _ _ => rfl)⟩

/-! ## C2: truncation branch behaviour -/

/-- C2 (confirmed): for every string, `truncateText` returns
`[EMPTY OUTPUT]` exactly on the empty string; prepends
`[FULL OUTPUT SHOWN]... ` to the unchanged text when
`0 < length ≤ TRUNCATE_LEN` (so length exactly `TRUNCATE_LEN` takes the
full-output branch); and for longer text returns
`[TRUNCATED: Last N chars shown].. ` (`N = TRUNCATE_LEN`) followed by
exactly the last `TRUNCATE_LEN` characters.  `TRUNCATE_LEN` (`T` here)
is positive per the configuration schema (`truncate_len` int>0,
default 5000). -/
theorem truncateText_branches (T : Nat) (hT : 0 < T) (text : String) :
    (text.length = 0 → truncateText T text = "[EMPTY OUTPUT]") ∧
    (0 < text.length → text.length ≤ T →
      truncateText T text = "[FULL OUTPUT SHOWN]... " ++ text) ∧
    (T < text.length →
      truncateText T text =
        "[TRUNCATED: Last " ++ toString T ++ " chars shown].. " ++ sliceNeg text T ∧
      (sliceNeg text T).length = T ∧
      text.data = text.data.take (text.length - T) ++ (sliceNeg text T).data) := by
  refine ⟨?_, ?_, ?_⟩
  · intro h0
    unfold truncateText
    rw [if_neg (by omega), if_pos h0]
  · intro hpos hle
    unfold truncateText
    rw [if_neg (by omega), if_neg (by omega)]
  · intro hlong
    refine ⟨truncateText_long hlong, sliceNeg_length hT hlong.le, ?_⟩
    rw [sliceNeg_data _ hT, string_length_data]
    exact (List.take_append_drop _ _).symm

/-- Witness for C2 at `TRUNCATE_LEN = 3`: the three branches at
`"" `, `"abc"` (length exactly the limit) and `"abcd"`. -/
theorem truncateText_branches_witness :
    (0 < 3 ∧ truncateText 3 "" = "[EMPTY OUTPUT]") ∧
    truncateText 3 "abc" = "[FULL OUTPUT SHOWN]... abc" ∧
    truncateText 3 "abcd" = "[TRUNCATED: Last 3 chars shown].. bcd" := by
  refine ⟨⟨by decide, (truncateText_branches 3 (by decide) "").1 (by decide)⟩, ?_, ?_⟩
  · exact (truncateText_branches 3 (by decide) "abc").2.1 (by decide) (by decide)
  · have h := ((truncateText_branches 3 (by decide) "abcd").2.2 (by decide)).1
    rw [h]
    decide

/-! ## C3: truncation idempotence (corrected) -/

/-- C3 counterexample: at the default `TRUNCATE_LEN` of 5000, truncation
is not idempotent — truncating the empty string yields `[EMPTY OUTPUT]`,
and truncating that again prepends the full-output header. -/
theorem truncateText_not_idempotent :
    truncateText TRUNCATE_LEN (truncateText TRUNCATE_LEN "") ≠
      truncateText TRUNCATE_LEN "" := by decide

/-- Truncation is idempotent on every input that takes the truncated
branch: the truncated output is itself longer than the window and its
last `T` characters are exactly the appended tail. -/
theorem truncateText_idempotent_on_long (T : Nat) (hT : 0 < T) (text : String)
    (h : T < text.length) :
    truncateText T (truncateText T text) = truncateText T text := by
  have htail : (sliceNeg text T).length = T := sliceNeg_length hT h.le
  have h1 : truncateText T text =
      ("[TRUNCATED: Last " ++ toString T ++ " chars shown].. ") ++ sliceNeg text T := by
    rw [truncateText_long h, String.append_assoc]
  have hlen : (("[TRUNCATED: Last " ++ toString T ++ " chars shown].. ") ++
      sliceNeg text T).length =
      ("[TRUNCATED: Last " ++ toString T ++ " chars shown].. ").length + T := by
    rw [String.length_append, htail]
  have hpre : 0 < ("[TRUNCATED: Last " ++ toString T ++ " chars shown].. ").length := by
    rw [String.length_append, String.length_append]
    have : ("[TRUNCATED: Last " : String).length = 17 := by decide
    omega
  have hlong2 : T < (truncateText T text).length := by
    rw [h1, hlen]
    omega
  rw [truncateText_long hlong2, h1, sliceNeg_append_right _ _ hT htail,
    String.append_assoc]

/-- On any input, truncation strictly lengthens a string that is
non-empty and shorter than the truncation header plus the window — as
every truncation output is. -/
theorem truncateText_length_gt {T : Nat} (hT : 0 < T) (s : String) (hs : 0 < s.length)
    (hlt : s.length < 33 + T) : s.length < (truncateText T s).length := by
  by_cases hlong : T < s.length
  · rw [truncateText_long hlong]
    rw [String.length_append, String.length_append, String.length_append]
    have hA : ("[TRUNCATED: Last " : String).length = 17 := rfl
    have hB : (" chars shown].. " : String).length = 16 := rfl
    have hslice : (sliceNeg s T).length = T := sliceNeg_length hT (le_of_lt hlong)
    omega
  · rw [truncateText, if_neg hlong, if_neg (by omega)]
    rw [String.length_append]
    have hF : ("[FULL OUTPUT SHOWN]... " : String).length = 23 := rfl
    omega

/-- On every input of length at most the window, a second application of
truncation changes the string: the first application yields a non-empty
string shorter than the header-plus-window bound, so the second
application strictly lengthens it. -/
theorem truncateText_not_idem_short {T : Nat} (hT : 0 < T) {text : String}
    (hle : text.length ≤ T) :
    truncateText T (truncateText T text) ≠ truncateText T text := by
  have hr : 0 < (truncateText T text).length ∧ (truncateText T text).length < 33 + T := by
    by_cases h0 : text.length = 0
    · rw [truncateText, if_neg (by omega), if_pos h0]
      have h14 : ("[EMPTY OUTPUT]" : String).length = 14 := rfl
      omega
    · rw [truncateText, if_neg (by omega), if_neg h0]
      rw [String.length_append]
      have hF : ("[FULL OUTPUT SHOWN]... " : String).length = 23 := rfl
      omega
  intro heq
  have hgt := truncateText_length_gt hT (truncateText T text) hr.1 hr.2
  rw [heq] at hgt
  omega

/-- C3 amended (proved): truncation is idempotent exactly on the strings
longer than `TRUNCATE_LEN` — a second application is the identity on
every truncated output and changes every shorter input (it prepends a
further header, strictly lengthening the string). -/
theorem truncateText_idempotent_iff (T : Nat) (hT : 0 < T) (text : String) :
    truncateText T (truncateText T text) = truncateText T text ↔ T < text.length := by
  constructor
  · intro h
    by_contra hle
    exact truncateText_not_idem_short hT (not_lt.mp hle) h
  · exact truncateText_idempotent_on_long T hT text

/-- Witness for C3's amended theorem at `T = 2`: idempotent on `"abc"`
(length 3 > 2), not idempotent on `"ab"` (length 2 ≤ 2). -/
theorem truncateText_idempotent_iff_witness :
    (0 < 2 ∧ truncateText 2 (truncateText 2 "abc") = truncateText 2 "abc") ∧
    (0 < 2 ∧ truncateText 2 (truncateText 2 "ab") ≠ truncateText 2 "ab") :=
  ⟨⟨by decide, (truncateText_idempotent_iff 2 (by decide) "abc").mpr (by decide)⟩,
   ⟨by decide, fun h =>
      absurd ((truncateText_idempotent_iff 2 (by decide) "ab").mp h) (by decide)⟩⟩

/-! ## C4: the recursion bridge `llm_query` -/

/-- C4 (confirmed): at depth at or beyond `MAX_DEPTH` no child
invocation is produced — the error line is appended to the caller's
stdout buffer and the call throws that message; below the cap, a child
invocation is produced at `depth + 1` with `parent_run_id` equal to the
caller's `run_id` and the caller's resolved model pair (the
process-global usage accumulator and log sink are shared by
construction), leaving the stdout buffer untouched. -/
theorem llm_query_depth_guard (MAX_DEPTH subagent_depth : Nat) (run_id : String)
    (models : RuntimeModelResolution) (context stdoutBuffer : String) :
    (MAX_DEPTH ≤ subagent_depth →
      llm_query MAX_DEPTH subagent_depth run_id models context stdoutBuffer =
        (stdoutBuffer ++
          "\nError: MAXIMUM DEPTH REACHED. You must solve this task on your own without calling llm_query.\n",
         Except.error
           "MAXIMUM DEPTH REACHED. You must solve this task on your own without calling llm_query.")) ∧
    (subagent_depth < MAX_DEPTH →
      llm_query MAX_DEPTH subagent_depth run_id models context stdoutBuffer =
        (stdoutBuffer,
         Except.ok ⟨context, subagent_depth + 1, some run_id, models⟩)) := by
  constructor
  · intro h
    unfold llm_query
    rw [if_pos h]
  · intro h
    unfold llm_query
    rw [if_neg (by omega)]

/-- Witness for C4 at the default `MAX_DEPTH = 3`: the throwing case at
depth 3 and the child-spawning case at depth 0. -/
theorem llm_query_depth_guard_witness :
    (MAX_DEPTH ≤ 3 ∧
      llm_query MAX_DEPTH 3 "run-a" ⟨"gpt-5", "gpt-5-codex-mini", []⟩ "ctx" "out" =
        ("out" ++
          "\nError: MAXIMUM DEPTH REACHED. You must solve this task on your own without calling llm_query.\n",
         Except.error
           "MAXIMUM DEPTH REACHED. You must solve this task on your own without calling llm_query.")) ∧
    (0 < MAX_DEPTH ∧
      llm_query MAX_DEPTH 0 "run-a" ⟨"gpt-5", "gpt-5-codex-mini", []⟩ "ctx" "out" =
        ("out", Except.ok ⟨"ctx", 1, some "run-a", ⟨"gpt-5", "gpt-5-codex-mini", []⟩⟩)) :=
  ⟨⟨by decide,
    (llm_query_depth_guard MAX_DEPTH 3 "run-a" ⟨"gpt-5", "gpt-5-codex-mini", []⟩
      "ctx" "out").1 (by decide)⟩,
   ⟨by decide,
    (llm_query_depth_guard MAX_DEPTH 0 "run-a" ⟨"gpt-5", "gpt-5-codex-mini", []⟩
      "ctx" "out").2 (by decide)⟩⟩

/-! ## C6: canonical shape of `normalizeUsage` (corrected) -/

/-- C6 counterexample: on the object `{cost: -1}` the normalized `cost`
is `-1`, so not every field of the canonical shape is non-negative —
a finite negative provider cost is passed through unchanged. -/
theorem normalizeUsage_cost_negative :
    (JSValue.obj [("cost", .num (.finite (-1)))]).isObj = true ∧
      (normalizeUsage (.obj [("cost", .num (.finite (-1)))])).cost < 0 :=
  ⟨rfl, by decide⟩

/-- C6 amended (proved): for every input object the canonical shape has
non-negative token fields; each token value that does not coerce to a
positive finite number becomes 0, with `total_tokens` falling back to
`prompt + completion`; `cost` is the provider's value whenever that is a
finite number (negative values included) and 0 otherwise. -/
theorem normalizeUsage_canonical (v : JSValue) (hv : v.isObj = true) :
    (0 ≤ (normalizeUsage v).prompt_tokens ∧ 0 ≤ (normalizeUsage v).completion_tokens ∧
      0 ≤ (normalizeUsage v).total_tokens ∧ 0 ≤ (normalizeUsage v).cached_tokens ∧
      0 ≤ (normalizeUsage v).reasoning_tokens) ∧
    (coercePositiveNumber (v.getField "prompt_tokens") = none →
      coercePositiveNumber ((v.getField "usageMetadata").getField "promptTokenCount") =
        none →
      (normalizeUsage v).prompt_tokens = 0) ∧
    (coercePositiveNumber (v.getField "completion_tokens") = none →
      coercePositiveNumber ((v.getField "usageMetadata").getField "candidatesTokenCount") =
        none →
      (normalizeUsage v).completion_tokens = 0) ∧
    (coercePositiveNumber (v.getField "total_tokens") = none →
      coercePositiveNumber ((v.getField "usageMetadata").getField "totalTokenCount") =
        none →
      (normalizeUsage v).total_tokens =
        (normalizeUsage v).prompt_tokens + (normalizeUsage v).completion_tokens) ∧
    (coercePositiveNumber ((v.getField "prompt_tokens_details").getField "cached_tokens") =
        none → (normalizeUsage v).cached_tokens = 0) ∧
    (coercePositiveNumber
        ((v.getField "completion_tokens_details").getField "reasoning_tokens") = none →
      (normalizeUsage v).reasoning_tokens = 0) ∧
    (∀ q : ℚ, v.getField "cost" = .num (.finite q) → (normalizeUsage v).cost = q) ∧
    ((∀ q : ℚ, v.getField "cost" ≠ .num (.finite q)) → (normalizeUsage v).cost = 0) := by
  cases v with
  | obj fields =>
    refine ⟨normalizeUsage_nonneg _, ?_, ?_, ?_, ?_, ?_, ?_, ?_⟩
    · intro h1 h2
      show ((coercePositiveNumber ((JSValue.obj fields).getField "prompt_tokens") <|>
        coercePositiveNumber (((JSValue.obj fields).getField "usageMetadata").getField
          "promptTokenCount")).getD 0) = 0
      rw [h1, h2]
      rfl
    · intro h1 h2
      show ((coercePositiveNumber ((JSValue.obj fields).getField "completion_tokens") <|>
        coercePositiveNumber (((JSValue.obj fields).getField "usageMetadata").getField
          "candidatesTokenCount")).getD 0) = 0
      rw [h1, h2]
      rfl
    · intro h1 h2
      show ((coercePositiveNumber ((JSValue.obj fields).getField "total_tokens") <|>
        coercePositiveNumber (((JSValue.obj fields).getField "usageMetadata").getField
          "totalTokenCount")).getD
          ((normalizeUsage (JSValue.obj fields)).prompt_tokens +
            (normalizeUsage (JSValue.obj fields)).completion_tokens)) =
        (normalizeUsage (JSValue.obj fields)).prompt_tokens +
          (normalizeUsage (JSValue.obj fields)).completion_tokens
      rw [h1, h2]
      rfl
    · intro h1
      show ((coercePositiveNumber (((JSValue.obj fields).getField
        "prompt_tokens_details").getField "cached_tokens")).getD 0) = 0
      rw [h1]
      rfl
    · intro h1
      show ((coercePositiveNumber (((JSValue.obj fields).getField
        "completion_tokens_details").getField "reasoning_tokens")).getD 0) = 0
      rw [h1]
      rfl
    · intro q hq
      rw [show normalizeUsage (JSValue.obj fields) = normalizeUsageObj (JSValue.obj fields)
        from rfl, nObj_cost, hq]
    · intro hq
      rw [show normalizeUsage (JSValue.obj fields) = normalizeUsageObj (JSValue.obj fields)
        from rfl, nObj_cost]
      cases hc : (JSValue.obj fields).getField "cost" with
      | num n =>
        cases n with
        | finite q => exact absurd hc (hq q)
        | nan => rfl
        | inf => rfl
        | negInf => rfl
      | undef => rfl
      | null => rfl
      | bool b => rfl
      | str s => rfl
      | obj f2 => rfl
  | undef => simp [JSValue.isObj] at hv
  | null => simp [JSValue.isObj] at hv
  | bool b => simp [JSValue.isObj] at hv
  | num n => simp [JSValue.isObj] at hv
  | str s => simp [JSValue.isObj] at hv

/-- Witness for C6 on the object `{prompt_tokens: 5, cost: NaN}`:
tokens are non-negative, a kept positive prompt count, and a
non-finite cost collapsing to 0. -/
theorem normalizeUsage_canonical_witness :
    (JSValue.obj [("prompt_tokens", .num (.finite 5)), ("cost", .num .nan)]).isObj =
      true ∧
    0 ≤ (normalizeUsage
      (.obj [("prompt_tokens", .num (.finite 5)), ("cost", .num .nan)])).prompt_tokens ∧
    (normalizeUsage
      (.obj [("prompt_tokens", .num (.finite 5)), ("cost", .num .nan)])).cost = 0 := by
  have h := normalizeUsage_canonical
    (.obj [("prompt_tokens", .num (.finite 5)), ("cost", .num .nan)]) rfl
  refine ⟨rfl, h.1.1, ?_⟩
  apply h.2.2.2.2.2.2.2
  intro q hq
  rw [show (JSValue.obj [("prompt_tokens", .num (.finite 5)),
    ("cost", .num .nan)]).getField "cost" = .num .nan from rfl] at hq
  simp at hq

/-! ## C7: idempotence of `normalizeUsage` (corrected) -/

/-- C7 counterexample: normalizing `{prompt_tokens_details:
{cached_tokens: 7}}` yields `cached_tokens = 7`, but normalizing the
canonical result again yields `cached_tokens = 0`, because the function
reads cached/reasoning counts only from the nested `*_details` objects
the canonical shape no longer carries. -/
theorem normalizeUsage_not_idempotent :
    normalizeUsage (usageToJS (normalizeUsage
        (.obj [("prompt_tokens_details", .obj [("cached_tokens", .num (.finite 7))])]))) ≠
      normalizeUsage
        (.obj [("prompt_tokens_details", .obj [("cached_tokens", .num (.finite 7))])]) := by
  have hL : (normalizeUsage (usageToJS (normalizeUsage
      (.obj [("prompt_tokens_details",
        .obj [("cached_tokens", .num (.finite 7))])])))).cached_tokens = 0 := rfl
  have hR : (normalizeUsage
      (.obj [("prompt_tokens_details",
        .obj [("cached_tokens", .num (.finite 7))])])).cached_tokens = 7 := rfl
  intro h
  rw [h, hR] at hL
  norm_num at hL

/-- C7 amended (proved): a second application of `normalizeUsage` to the
canonical result preserves `prompt_tokens`, `completion_tokens`,
`total_tokens` and `cost`, and resets `cached_tokens` and
`reasoning_tokens` to 0 — so `normalizeUsage` is idempotent exactly on
results whose cached/reasoning counts are 0. -/
theorem normalizeUsage_second_application (x : JSValue) :
    normalizeUsage (usageToJS (normalizeUsage x)) =
      { normalizeUsage x with cached_tokens := 0, reasoning_tokens := 0 } := by
  obtain ⟨hp, hc, ht, hca, hre⟩ := normalizeUsage_nonneg x
  have htd := normalizeUsage_total_cases x
  set u := normalizeUsage x with hu
  have h1 : normalizeUsage (usageToJS u) = normalizeUsageObj (usageToJS u) := rfl
  have e1 : (normalizeUsageObj (usageToJS u)).prompt_tokens = u.prompt_tokens := by
    rw [nObj_prompt]
    rw [show (usageToJS u).getField "prompt_tokens" = .num (.finite u.prompt_tokens)
      from rfl]
    rw [show ((usageToJS u).getField "usageMetadata").getField "promptTokenCount" =
      JSValue.undef from rfl]
    exact coerce_finite_none_getD hp
  have e2 : (normalizeUsageObj (usageToJS u)).completion_tokens = u.completion_tokens := by
    show ((coercePositiveNumber ((usageToJS u).getField "completion_tokens") <|>
      coercePositiveNumber (((usageToJS u).getField "usageMetadata").getField
        "candidatesTokenCount")).getD 0) = u.completion_tokens
    rw [show (usageToJS u).getField "completion_tokens" =
      .num (.finite u.completion_tokens) from rfl]
    exact coerce_finite_none_getD hc
  have e3 : (normalizeUsageObj (usageToJS u)).total_tokens = u.total_tokens := by
    rw [nObj_total]
    rw [show (usageToJS u).getField "total_tokens" = .num (.finite u.total_tokens)
      from rfl]
    rw [e1, e2]
    exact coerce_finite_none_getD_total htd
  have e4 : (normalizeUsageObj (usageToJS u)).cached_tokens = 0 := rfl
  have e5 : (normalizeUsageObj (usageToJS u)).reasoning_tokens = 0 := rfl
  have e6 : (normalizeUsageObj (usageToJS u)).cost = u.cost := rfl
  rw [h1]
  rcases hN : normalizeUsageObj (usageToJS u) with ⟨a, b, c, d, e, f⟩
  rw [hN] at e1 e2 e3 e4 e5 e6
  simp only at e1 e2 e3 e4 e5 e6
  subst e1 e2 e3 e4 e5 e6
  rfl

/-! ## C9: secret redaction at the stderr boundary (corrected) -/

/-- Token characters are never regex whitespace (the two classes of the
Bearer pattern are disjoint). -/
theorem token_not_ws {c : Char} (h : isTokenChar c = true) : isJsWhitespace c = false := by
  unfold isTokenChar at h
  unfold isJsWhitespace
  simp only [Bool.or_eq_true, Bool.and_eq_true, decide_eq_true_eq] at h
  simp only [Bool.or_eq_false_iff, Bool.and_eq_false_iff, decide_eq_false_iff_not]
  omega

/-- A run over a list all of whose members satisfy the predicate is the
whole list. -/
theorem leadingRun_all {p : Char → Bool} {l : List Char} (h : ∀ c ∈ l, p c = true) :
    leadingRun p l = l.length := by
  induction l with
  | nil => rfl
  | cons c cs ih =>
    have hc := h c (List.mem_cons_self c cs)
    simp [leadingRun, hc, ih (fun d hd => h d (List.mem_cons_of_mem c hd))]

/-- A token string has no leading whitespace. -/
theorem leadingRun_token_zero {l : List Char} (h : ∀ c ∈ l, isTokenChar c = true) :
    leadingRun isJsWhitespace l = 0 := by
  cases l with
  | nil => rfl
  | cons c cs =>
    simp [leadingRun, token_not_ws (h c (List.mem_cons_self c cs))]

/-- The Bearer pattern matches `Bearer <token>` entirely. -/
theorem matchBearerLen_bearer {tok : List Char} (hne : tok ≠ [])
    (h : ∀ c ∈ tok, isTokenChar c = true) :
    matchBearerLen ('B' :: 'e' :: 'a' :: 'r' :: 'e' :: 'r' :: ' ' :: tok) =
      some (7 + tok.length) := by
  have hw : leadingRun isJsWhitespace (' ' :: tok) = 1 := by
    rw [show leadingRun isJsWhitespace (' ' :: tok) =
      (if isJsWhitespace ' ' then leadingRun isJsWhitespace tok + 1 else 0) from rfl]
    rw [if_pos (by decide), leadingRun_token_zero h]
  have htk : leadingRun isTokenChar tok = tok.length := leadingRun_all h
  have hlen0 : tok.length ≠ 0 := by
    cases tok with
    | nil => exact absurd rfl hne
    | cons a b => simp
  calc matchBearerLen ('B' :: 'e' :: 'a' :: 'r' :: 'e' :: 'r' :: ' ' :: tok)
      = (let w := leadingRun isJsWhitespace (' ' :: tok)
         if w = 0 then none
         else
           let t := leadingRun isTokenChar (List.drop w (' ' :: tok))
           if t = 0 then none else some (6 + w + t)) := rfl
    _ = some (7 + tok.length) := by
        simp only [hw, List.drop_succ_cons, List.drop_zero]
        simp [htk, hlen0]

/-- The Bearer scan folds `Bearer <token>` to the literal replacement. -/
theorem replaceBearer_bearer {tok : List Char} (hne : tok ≠ [])
    (h : ∀ c ∈ tok, isTokenChar c = true) :
    replaceBearer ('B' :: 'e' :: 'a' :: 'r' :: 'e' :: 'r' :: ' ' :: tok) =
      "Bearer [REDACTED]".data := by
  have hstep : replaceBearer ('B' :: 'e' :: 'a' :: 'r' :: 'e' :: 'r' :: ' ' :: tok) =
      (match matchBearerLen ('B' :: 'e' :: 'a' :: 'r' :: 'e' :: 'r' :: ' ' :: tok) with
       | some n => "Bearer [REDACTED]".data ++
           replaceBearerGo (tok.length + 6)
             (List.drop (n - 1) ('e' :: 'a' :: 'r' :: 'e' :: 'r' :: ' ' :: tok))
       | none => 'B' :: replaceBearerGo (tok.length + 6)
           ('e' :: 'a' :: 'r' :: 'e' :: 'r' :: ' ' :: tok)) := rfl
  rw [hstep, matchBearerLen_bearer hne h]
  simp only []
  have hdrop : List.drop (7 + tok.length - 1)
      ('e' :: 'a' :: 'r' :: 'e' :: 'r' :: ' ' :: tok) = [] := by
    apply List.drop_eq_nil_of_le
    simp
    omega
  rw [hdrop]
  simp [replaceBearerGo]

/-- `redactSecrets` replaces a whole `Bearer <token>` message by the
redacted literal. -/
theorem redactSecrets_bearer (tok : String) (hne : tok.data ≠ [])
    (h : ∀ c ∈ tok.data, isTokenChar c = true) :
    redactSecrets ("Bearer " ++ tok) = "Bearer [REDACTED]" := by
  have hdata : ("Bearer " ++ tok).data =
      'B' :: 'e' :: 'a' :: 'r' :: 'e' :: 'r' :: ' ' :: tok.data := rfl
  unfold redactSecrets
  rw [hdata, replaceBearer_bearer hne h]
  rw [show replaceApiKey ("Bearer [REDACTED]".data) = "Bearer [REDACTED]".data by decide]

/-- C9 counterexample: a fatal turn-loop error carrying a bearer token
is printed by `runSubagentCommand` to stderr verbatim — the emitted text
contains the secret — although `redactSecrets` (applied only on the
`runCli` top-level path) would have removed it. -/
theorem subagent_fatal_stderr_leaks_secret :
    subagentFatalStderr "proxy auth failed: Bearer sk-proj-SECRET123" =
      "\nFatal error: proxy auth failed: Bearer sk-proj-SECRET123" ∧
    strContains (subagentFatalStderr "proxy auth failed: Bearer sk-proj-SECRET123")
      "sk-proj-SECRET123" = true ∧
    strContains (cliFatalStderr "proxy auth failed: Bearer sk-proj-SECRET123")
      "sk-proj-SECRET123" = false :=
  ⟨rfl, by decide, by decide⟩

/-- C9 amended (proved): errors that escape to `runCli`'s top-level
catch are passed through `redactSecrets`, which rewrites Bearer-token
(and `RLM_MODEL_API_KEY=value`) patterns to `[REDACTED]`; but fatal
errors caught inside `runSubagentCommand` reach stderr verbatim,
unredacted. -/
theorem redactSecrets_paths (tok : String) (hne : tok.data ≠ [])
    (h : ∀ c ∈ tok.data, isTokenChar c = true) :
    cliFatalStderr ("Bearer " ++ tok) = "Bearer [REDACTED]" ∧
    subagentFatalStderr ("Bearer " ++ tok) = "\nFatal error: Bearer " ++ tok := by
  constructor
  · exact redactSecrets_bearer tok hne h
  · show "\nFatal error: " ++ ("Bearer " ++ tok) = "\nFatal error: Bearer " ++ tok
    rw [show ("\nFatal error: Bearer " : String) = "\nFatal error: " ++ "Bearer "
      from rfl, String.append_assoc]

/-- Witness for C9's amended theorem at the token `sk-12345`. -/
theorem redactSecrets_paths_witness :
    (("sk-12345" : String).data ≠ [] ∧
      cliFatalStderr ("Bearer " ++ "sk-12345") = "Bearer [REDACTED]") ∧
    subagentFatalStderr ("Bearer " ++ "sk-12345") = "\nFatal error: Bearer " ++ "sk-12345" :=
  ⟨⟨by decide, (redactSecrets_paths "sk-12345" (by decide) (by decide)).1⟩,
   (redactSecrets_paths "sk-12345" (by decide) (by decide)).2⟩

/-! ## C10: atomic result-file write -/

/-- Head lookup hit. -/
theorem fsGet_cons_pos {e : String × String} {t : FileSystem} {q : String} (h : e.1 = q) :
    fsGet (e :: t) q = some e.2 := by
  simp [fsGet, List.find?_cons_of_pos, h]

/-- Head lookup miss. -/
theorem fsGet_cons_neg {e : String × String} {t : FileSystem} {q : String} (h : e.1 ≠ q) :
    fsGet (e :: t) q = fsGet t q := by
  simp [fsGet, List.find?_cons_of_neg, h]

/-- Removing a path clears exactly that path. -/
theorem fsGet_fsErase (fs : FileSystem) (p q : String) :
    fsGet (fsErase fs p) q = if q = p then none else fsGet fs q := by
  induction fs with
  | nil => simp [fsGet, fsErase]
  | cons e t ih =>
    by_cases hep : e.1 = p
    · have h1 : fsErase (e :: t) p = fsErase t p := by simp [fsErase, List.filter_cons, hep]
      rw [h1, ih]
      by_cases hqp : q = p
      · simp [hqp]
      · have hne : e.1 ≠ q := fun hh => hqp (hh.symm.trans hep)
        simp [hqp, fsGet_cons_neg hne]
    · have h1 : fsErase (e :: t) p = e :: fsErase t p := by
        simp [fsErase, List.filter_cons, hep]
      rw [h1]
      by_cases hqe : e.1 = q
      · have hqp : q ≠ p := fun hh => hep (hqe.trans hh)
        rw [fsGet_cons_pos hqe]
        simp [hqp, fsGet_cons_pos hqe]
      · rw [fsGet_cons_neg hqe, ih]
        by_cases hqp : q = p
        · simp [hqp]
        · simp [hqp, fsGet_cons_neg hqe]

/-- Writing a path sets exactly that path. -/
theorem fsGet_fsSet (fs : FileSystem) (p c q : String) :
    fsGet (fsSet fs p c) q = if q = p then some c else fsGet fs q := by
  unfold fsSet
  by_cases hqp : q = p
  · rw [fsGet_cons_pos hqp.symm]
    simp [hqp]
  · rw [fsGet_cons_neg (fun hh => hqp hh.symm)]
    rw [fsGet_fsErase]
    simp [hqp]

/-- The temporary path is distinct from the destination (it is strictly
longer). -/
theorem outputFile_ne_tmp (outputFile uuid : String) :
    outputFile ≠ outputFile ++ ".tmp." ++ uuid := by
  intro h
  have hlen := congrArg String.length h
  rw [String.length_append, String.length_append] at hlen
  have h5 : (".tmp." : String).length = 5 := rfl
  omega

/-- C10 (confirmed): on success the destination holds the complete
serialized payload and no temporary file remains; on a write or rename
failure the destination is left unchanged, the thrown error is a
`CliError` of kind `output` (exit code 7) whose message names the
destination, and whenever the best-effort remove succeeds the temporary
file is gone. -/
theorem writeOutputAtomically_spec (fs : FileSystem) (outputFile payloadJson uuid : String)
    (fail : FsFailures) :
    (fail.writeFails = false → fail.renameFails = false →
      (writeOutputAtomically fs outputFile payloadJson uuid fail).2 = Except.ok () ∧
      fsGet (writeOutputAtomically fs outputFile payloadJson uuid fail).1 outputFile =
        some payloadJson ∧
      fsGet (writeOutputAtomically fs outputFile payloadJson uuid fail).1
        (outputFile ++ ".tmp." ++ uuid) = none) ∧
    (fail.writeFails = true ∨ fail.renameFails = true →
      fsGet (writeOutputAtomically fs outputFile payloadJson uuid fail).1 outputFile =
        fsGet fs outputFile ∧
      (writeOutputAtomically fs outputFile payloadJson uuid fail).2 =
        Except.error ⟨CliErrorKind.output,
          "Failed writing output file '" ++ outputFile ++ "': " ++
            (if fail.writeFails then fail.writeErr else fail.renameErr)⟩ ∧
      (∀ e, (writeOutputAtomically fs outputFile payloadJson uuid fail).2 =
          Except.error e →
        e.kind = CliErrorKind.output ∧ exitCodeForError e = 7 ∧
          strContains e.message outputFile = true) ∧
      (fail.removeFails = false →
        fsGet (writeOutputAtomically fs outputFile payloadJson uuid fail).1
          (outputFile ++ ".tmp." ++ uuid) = none)) := by
  have hne := outputFile_ne_tmp outputFile uuid
  have hcontains : strContains
      ("Failed writing output file '" ++ outputFile ++ "': " ++
        (if fail.writeFails then fail.writeErr else fail.renameErr)) outputFile = true := by
    apply strContains_of_decomp _ "Failed writing output file '" outputFile
      ("': " ++ (if fail.writeFails then fail.writeErr else fail.renameErr))
    simp [string_data_append, List.append_assoc]
  rcases fail with ⟨wf, we, rf, re, rm⟩
  constructor
  · intro hw hr
    subst hw
    subst hr
    cases rm with
    | true =>
      refine ⟨rfl, ?_, ?_⟩
      · show fsGet (fsErase (fsSet (fsSet fs (outputFile ++ ".tmp." ++ uuid) payloadJson)
          outputFile payloadJson) (outputFile ++ ".tmp." ++ uuid)) outputFile =
          some payloadJson
        rw [fsGet_fsErase, if_neg hne, fsGet_fsSet]
        simp
      · show fsGet (fsErase (fsSet (fsSet fs (outputFile ++ ".tmp." ++ uuid) payloadJson)
          outputFile payloadJson) (outputFile ++ ".tmp." ++ uuid))
          (outputFile ++ ".tmp." ++ uuid) = none
        rw [fsGet_fsErase]
        simp
    | false =>
      refine ⟨rfl, ?_, ?_⟩
      · show fsGet (fsErase (fsSet (fsSet fs (outputFile ++ ".tmp." ++ uuid) payloadJson)
          outputFile payloadJson) (outputFile ++ ".tmp." ++ uuid)) outputFile =
          some payloadJson
        rw [fsGet_fsErase, if_neg hne, fsGet_fsSet]
        simp
      · show fsGet (fsErase (fsSet (fsSet fs (outputFile ++ ".tmp." ++ uuid) payloadJson)
          outputFile payloadJson) (outputFile ++ ".tmp." ++ uuid))
          (outputFile ++ ".tmp." ++ uuid) = none
        rw [fsGet_fsErase]
        simp
  · intro hwr
    cases wf with
    | true =>
      cases rm with
      | true =>
        refine ⟨rfl, rfl, ?_, ?_⟩
        · intro e he
          cases he
          exact ⟨rfl, rfl, hcontains⟩
        · intro hr
          cases hr
      | false =>
        refine ⟨?_, rfl, ?_, ?_⟩
        · show fsGet (fsErase fs (outputFile ++ ".tmp." ++ uuid)) outputFile =
            fsGet fs outputFile
          rw [fsGet_fsErase]
          simp [hne]
        · intro e he
          cases he
          exact ⟨rfl, rfl, hcontains⟩
        · intro hr
          show fsGet (fsErase fs (outputFile ++ ".tmp." ++ uuid))
            (outputFile ++ ".tmp." ++ uuid) = none
          rw [fsGet_fsErase]
          simp
    | false =>
      cases rf with
      | true =>
        cases rm with
        | true =>
          refine ⟨?_, rfl, ?_, ?_⟩
          · show fsGet (fsSet fs (outputFile ++ ".tmp." ++ uuid) payloadJson) outputFile =
              fsGet fs outputFile
            rw [fsGet_fsSet]
            simp [hne]
          · intro e he
            cases he
            exact ⟨rfl, rfl, hcontains⟩
          · intro hr
            cases hr
        | false =>
          refine ⟨?_, rfl, ?_, ?_⟩
          · show fsGet (fsErase (fsSet fs (outputFile ++ ".tmp." ++ uuid) payloadJson)
              (outputFile ++ ".tmp." ++ uuid)) outputFile = fsGet fs outputFile
            rw [fsGet_fsErase, if_neg hne, fsGet_fsSet]
            simp [hne]
          · intro e he
            cases he
            exact ⟨rfl, rfl, hcontains⟩
          · intro hr
            show fsGet (fsErase (fsSet fs (outputFile ++ ".tmp." ++ uuid) payloadJson)
              (outputFile ++ ".tmp." ++ uuid)) (outputFile ++ ".tmp." ++ uuid) = none
            rw [fsGet_fsErase]
            simp
      | false =>
        rcases hwr with hw | hr
        · cases hw
        · cases hr

/-- Witness for C10: a rename failure over an existing destination
leaves the old content in place and throws the `output`-kind error
naming the destination; the no-failure run replaces the content. -/
theorem writeOutputAtomically_spec_witness :
    (fsGet (writeOutputAtomically [("out.json", "old")] "out.json" "{}" "u1"
        ⟨false, "", true, "boom", false⟩).1 "out.json" = some "old" ∧
      (writeOutputAtomically [("out.json", "old")] "out.json" "{}" "u1"
        ⟨false, "", true, "boom", false⟩).2 =
        Except.error ⟨CliErrorKind.output, "Failed writing output file 'out.json': boom"⟩) ∧
    fsGet (writeOutputAtomically [("out.json", "old")] "out.json" "{}" "u1"
      ⟨false, "", false, "", false⟩).1 "out.json" = some "{}" := by
  have h1 := (writeOutputAtomically_spec [("out.json", "old")] "out.json" "{}" "u1"
    ⟨false, "", true, "boom", false⟩).2 (Or.inr rfl)
  have h2 := ((writeOutputAtomically_spec [("out.json", "old")] "out.json" "{}" "u1"
    ⟨false, "", false, "", false⟩).1 rfl rfl).2.1
  refine ⟨⟨?_, ?_⟩, h2⟩
  · rw [h1.1]
    decide
  · rw [h1.2.1]
    rfl
